import Mathlib

/-!
Verification development for the Math-Function-Formula-Generator repository
(`src/script.js`, with `src/unnamed/part_000` a near-duplicate variant).

The numeric model: JavaScript numbers are embedded as `JSVal` — an exact
rational for the finite case together with the special values `NaN`,
`Infinity`, `-Infinity` and `undefined`.  Transcendental library functions
(`Math.sin`, `Math.log`, ...) and the simplex-noise sample (whose algorithm
mixes the irrational constants `F2`/`G2` into every output) are carried as
parameters in a `Prims` bundle; everything built on top of them — the hash,
the deterministic random wrappers, the octave loop, the compiler, the
sampler, the biome bands and the history list — is translated from the
source line by line.
-/

/-- A JavaScript number-ish value: a finite number (modelled exactly as a
rational), `NaN`, `Infinity`, `-Infinity`, or `undefined`. -/
inductive JSVal where
  | num (q : ℚ)
  | nan
  | inf
  | ninf
  | undef
deriving DecidableEq, Repr

/-- ToNumber coercion as arithmetic applies it: `undefined` becomes `NaN`,
every other value is already numeric. -/
def toNum : JSVal → JSVal
  | .undef => .nan
  | v => v

/-- JavaScript truthiness of a value (`0`, `NaN` and `undefined` are falsy). -/
def truthy : JSVal → Bool
  | .num q => if q = 0 then false else true
  | .inf => true
  | .ninf => true
  | .nan => false
  | .undef => false

/-- The `a || d` idiom with a numeric default `d`, as in `(per||0.5)`. -/
def orDefault (v : JSVal) (d : ℚ) : JSVal :=
  if truthy v then v else .num d

/-- Unary minus. -/
def jneg : JSVal → JSVal
  | .num q => .num (-q)
  | .inf => .ninf
  | .ninf => .inf
  | _ => .nan

/-- JavaScript `+` on numbers. -/
def jadd (a b : JSVal) : JSVal :=
  match toNum a, toNum b with
  | .num p, .num q => .num (p + q)
  | .num _, .inf => .inf
  | .num _, .ninf => .ninf
  | .inf, .num _ => .inf
  | .ninf, .num _ => .ninf
  | .inf, .inf => .inf
  | .ninf, .ninf => .ninf
  | _, _ => .nan

/-- JavaScript `-` on numbers. -/
def jsub (a b : JSVal) : JSVal := jadd a (jneg (toNum b))

/-- JavaScript `*` on numbers. -/
def jmul (a b : JSVal) : JSVal :=
  match toNum a, toNum b with
  | .num p, .num q => .num (p * q)
  | .num p, .inf => if p = 0 then .nan else if 0 < p then .inf else .ninf
  | .num p, .ninf => if p = 0 then .nan else if 0 < p then .ninf else .inf
  | .inf, .num q => if q = 0 then .nan else if 0 < q then .inf else .ninf
  | .ninf, .num q => if q = 0 then .nan else if 0 < q then .ninf else .inf
  | .inf, .inf => .inf
  | .inf, .ninf => .ninf
  | .ninf, .inf => .ninf
  | .ninf, .ninf => .inf
  | _, _ => .nan

/-- JavaScript `/` on numbers (`0/0 = NaN`, `x/0 = ±Infinity` otherwise;
the embedding has a single zero, so the sign of a zero divisor is `+`). -/
def jdiv (a b : JSVal) : JSVal :=
  match toNum a, toNum b with
  | .num p, .num q =>
      if q = 0 then (if p = 0 then .nan else if 0 < p then .inf else .ninf)
      else .num (p / q)
  | .num _, .inf => .num 0
  | .num _, .ninf => .num 0
  | .inf, .num q => if 0 ≤ q then .inf else .ninf
  | .ninf, .num q => if 0 ≤ q then .ninf else .inf
  | _, _ => .nan

/-- Truncation toward zero, used by the `%` remainder. -/
def ratTrunc (q : ℚ) : ℚ := if 0 ≤ q then (⌊q⌋ : ℚ) else (⌈q⌉ : ℚ)

/-- JavaScript `%` (remainder with the dividend's sign). -/
def jmod (a b : JSVal) : JSVal :=
  match toNum a, toNum b with
  | .num p, .num q => if q = 0 then .nan else .num (p - q * ratTrunc (p / q))
  | .num p, .inf => .num p
  | .num p, .ninf => .num p
  | _, _ => .nan

/-- Lift a real-valued library function (`Math.sin`, ...) to `JSVal`; these
functions return `NaN` on every non-finite argument. -/
def junary (f : ℚ → ℚ) (v : JSVal) : JSVal :=
  match toNum v with
  | .num q => .num (f q)
  | _ => .nan

/-- Lift the two-coordinate noise sample to `JSVal` arguments: any non-finite
coordinate propagates to a `NaN` sample, as tracing `Noise.simplex` on
`NaN`/`Infinity`/`undefined` inputs shows. -/
def liftNoise2 (ns : ℚ → ℚ → ℚ) (a c : JSVal) : JSVal :=
  match toNum a, toNum c with
  | .num p, .num q => .num (ns p q)
  | _, _ => .nan

/-- Math.floor lifted to `JSVal` (`Math.floor(±Infinity) = ±Infinity`). -/
def jfloor (v : JSVal) : JSVal :=
  match toNum v with
  | .num q => .num ((⌊q⌋ : ℤ) : ℚ)
  | w => w

/-!
Noise engine permutation table (`src/script.js` lines 8-18).  `seed()` draws
`r = Math.floor(Math.random()*256)` per step; the draws are modelled as an
oracle `draws : ℕ → Fin 256`.  The byte array `p` is modelled as a function
`Fin 256 → Fin 256` (a `Uint8Array` of 256 entries holding bytes below 256),
and the in-place swap `t = p[i]; p[i] = p[r]; p[r] = t` as two updates.
-/

namespace Noise

/-- One iteration of the shuffle loop: `let t = p[i]; p[i] = p[r]; p[r] = t`. -/
def swapStep (p : Fin 256 → Fin 256) (i r : Fin 256) : Fin 256 → Fin 256 :=
  Function.update (Function.update p i (p r)) r (p i)

/-- The shuffled 256-entry array after `seed()`'s loop, starting from
`p[i] = i`. -/
def shuffle (draws : ℕ → Fin 256) : Fin 256 → Fin 256 :=
  (List.finRange 256).foldl (fun p i => swapStep p i (draws i.val)) id

/-- The 512-entry table written by `for(let i=0; i<512; i++) this.perm[i] = p[i & 255]`,
read at an arbitrary index (every read in `simplex` masks or bounds the index
the same way the write loop does). -/
def permAt (draws : ℕ → Fin 256) (i : ℕ) : ℕ :=
  (shuffle draws ⟨i &&& 255, by
    have h := @Nat.and_le_right i 255
    omega⟩).val

theorem swapStep_eq_comp_swap (p : Fin 256 → Fin 256) (i r : Fin 256) :
    swapStep p i r = p ∘ (Equiv.swap i r) := by
  funext j
  by_cases hjr : j = r
  · subst hjr
    simp [swapStep, Function.update, Equiv.swap_apply_right]
  · by_cases hji : j = i
    · subst hji
      simp [swapStep, Function.update, hjr, Equiv.swap_apply_left]
    · simp [swapStep, Function.update, hjr, hji, Equiv.swap_apply_of_ne_of_ne hji hjr]

theorem foldl_swapStep_bijective (draws : ℕ → Fin 256) (l : List (Fin 256)) :
    ∀ p : Fin 256 → Fin 256, Function.Bijective p →
      Function.Bijective (l.foldl (fun p i => swapStep p i (draws i.val)) p) := by
  induction l with
  | nil => intro p hp; exact hp
  | cons a t ih =>
      intro p hp
      rw [List.foldl_cons]
      apply ih
      rw [swapStep_eq_comp_swap]
      exact hp.comp (Equiv.swap a (draws a.val)).bijective

theorem shuffle_bijective (draws : ℕ → Fin 256) : Function.Bijective (shuffle draws) :=
  foldl_swapStep_bijective draws (List.finRange 256) id Function.bijective_id

/-- The masked index equals reduction mod 256. -/
theorem and_255_eq_mod (i : ℕ) : i &&& 255 = i % 256 := by
  have h := Nat.and_pow_two_sub_one_eq_mod i 8
  norm_num at h
  exact h

theorem permAt_lt_256 (draws : ℕ → Fin 256) (i : ℕ) : permAt draws i < 256 :=
  (shuffle draws _).isLt

/-- Reading the table at an in-range index agrees with the shuffled array. -/
theorem permAt_eq_shuffle (draws : ℕ → Fin 256) (i : ℕ) (hi : i < 256) :
    permAt draws i = (shuffle draws ⟨i, hi⟩).val := by
  unfold permAt
  congr 2
  apply Fin.ext
  show i &&& 255 = i
  rw [and_255_eq_mod]
  exact Nat.mod_eq_of_lt hi

/-- The first 256 table entries are a permutation of 0..255. -/
theorem permAt_range_perm (draws : ℕ → Fin 256) :
    ((List.range 256).map (permAt draws)).Perm (List.range 256) := by
  have hmap : (List.range 256).map (permAt draws)
      = ((List.finRange 256).map (Equiv.ofBijective _ (shuffle_bijective draws))).map Fin.val := by
    rw [← List.map_coe_finRange 256, List.map_map, List.map_map]
    apply List.map_congr_left
    intro a _
    simp only [Function.comp_apply, Equiv.ofBijective_apply]
    exact permAt_eq_shuffle draws a.val a.isLt
  rw [hmap, ← List.map_coe_finRange 256]
  exact (Equiv.Perm.map_finRange_perm (Equiv.ofBijective _ (shuffle_bijective draws))).map Fin.val

end Noise

/-!
Primitive real functions that the source takes from `Math`, plus the noise
sample `Noise.simplex` — all carried abstractly, since their values are
irrational; everything proved below holds for every interpretation.
`nsimplex` receives the current permutation table (`Noise.simplex` reads
`this.perm`), making the dependence on the seed explicit.
-/
structure Prims where
  sinQ : ℚ → ℚ
  cosQ : ℚ → ℚ
  sqrtQ : ℚ → ℚ
  lnQ : ℚ → ℚ
  piQ : ℚ
  nsimplex : (ℕ → Fin 256) → ℚ → ℚ → ℚ

/-- Fractional part, `Hash.fract: x => x - Math.floor(x)` (script.js line 53). -/
def Hash.fract (x : ℚ) : ℚ := x - (⌊x⌋ : ℚ)

/-- The coordinate hash, `Hash.val` (script.js lines 55-57):
`fract(Math.sin(x * 12.9898 + z * 78.233) * 43758.5453)`. -/
def Hash.val (P : Prims) (x z : ℚ) : ℚ :=
  Hash.fract (P.sinQ (x * 12.9898 + z * 78.233) * 43758.5453)

/-- State visible to one evaluation of a compiled formula: the two call
arguments `x`,`z`, the Math Context's mutable coordinate slots `Ctx._x`,
`Ctx._z` (script.js line 63), the noise permutation table, and the ambient
`Math.random` stream `rng` — present so that independence from it is a
statement, not an artifact; none of the script.js primitives read it. -/
structure EvalState where
  argX : JSVal
  argZ : JSVal
  ctxX : ℚ
  ctxZ : ℚ
  perm : ℕ → Fin 256
  rng : ℕ → ℚ

namespace Ctx

/-- `Ctx.rand: () => Hash.val(Ctx._x, Ctx._z)` (script.js line 119). -/
def rand (P : Prims) (s : EvalState) : JSVal :=
  .num (Hash.val P s.ctxX s.ctxZ)

/-- `Ctx.randrange: (min, max) => Hash.val(Ctx._x, Ctx._z) * (max - min) + min`
(script.js line 127). -/
def randrange (P : Prims) (s : EvalState) (mn mx : JSVal) : JSVal :=
  jadd (jmul (.num (Hash.val P s.ctxX s.ctxZ)) (jsub mx mn)) mn

/-- `Ctx.randnormal` (script.js lines 120-126): Box-Muller on two hashes of
scaled coordinate slots, with `u` floored at `0.0001` when non-positive. -/
def randnormal (P : Prims) (s : EvalState) (mean stdev : JSVal) : JSVal :=
  let u := Hash.val P (s.ctxX * 1.5) (s.ctxZ * 1.5)
  let v := Hash.val P (s.ctxX * 2.5) (s.ctxZ * 2.5)
  let u2 := if u ≤ 0 then 0.0001 else u
  jadd
    (jmul (.num (P.sqrtQ (-2.0 * P.lnQ u2) * P.cosQ (2.0 * P.piQ * v)))
      (orDefault stdev 1))
    (orDefault mean 0)

/-- `Ctx.perlin: (x, y, z) => Noise.simplex(x, z)` (script.js line 130). -/
def perlin (P : Prims) (perm : ℕ → Fin 256) (x _y z : JSVal) : JSVal :=
  liftNoise2 (P.nsimplex perm) x z

/-- `Ctx.simplex: (x, y, z) => Noise.simplex(x, z)` (script.js line 131). -/
def simplex (P : Prims) (perm : ℕ → Fin 256) (x _y z : JSVal) : JSVal :=
  liftNoise2 (P.nsimplex perm) x z

/-- `Ctx.blended: (x, y, z) => (Noise.simplex(x, z) + Math.sin(x)*Math.cos(z))/2`
(script.js line 133). -/
def blended (P : Prims) (perm : ℕ → Fin 256) (x _y z : JSVal) : JSVal :=
  jdiv (jadd (liftNoise2 (P.nsimplex perm) x z)
    (jmul (junary P.sinQ x) (junary P.cosQ z))) (.num 2)

/-- Loop state of `Ctx.octaved`: `(total, amp, freq, max)`. -/
def octStep (ns : ℚ → ℚ → ℚ) (x z per : JSVal)
    (st : JSVal × JSVal × JSVal × JSVal) : JSVal × JSVal × JSVal × JSVal :=
  match st with
  | (total, amp, freq, maxA) =>
      (jadd total (jmul (liftNoise2 ns (jmul x freq) (jmul z freq)) amp),
       jmul amp (orDefault per 0.5),
       jmul freq (.num 2),
       jadd maxA amp)

/-- Number of iterations of `for(let i=0; i<(oct||4); i++)` for a given bound
value: none when the bound is not a positive number (the source would not
terminate on an `Infinity` bound; that case is unreachable here and mapped
to zero iterations). -/
def iterCount (v : JSVal) : ℕ :=
  match toNum v with
  | .num q => if q ≤ 0 then 0 else (⌈q⌉).toNat
  | _ => 0

/-- `Ctx.octaved` (script.js lines 134-141). -/
def octaved (P : Prims) (perm : ℕ → Fin 256) (x z oct per : JSVal) : JSVal :=
  let cnt := iterCount (orDefault oct 4)
  let st := (octStep (P.nsimplex perm) x z per)^[cnt] (.num 0, .num 1, .num 1, .num 0)
  jdiv st.1 st.2.2.2

end Ctx

/-!
Compiled formulas.  `compileFormula` builds `new Function('C','x','z',
'with(C){ return <expr>; }')`: the body is an expression over the call
arguments and the Math Context names.  The fragment of that expression
language built from the deterministic random/noise primitives is embedded
as an AST; `badIdent` stands for an identifier that resolves neither in the
Context nor globally, whose evaluation throws a `ReferenceError`, and
`undefE` for the global `undefined` (also what a missing call argument
denotes). -/
inductive Expr where
  | num (q : ℚ)
  | varX
  | varZ
  | undefE
  | badIdent (name : String)
  | add (a b : Expr)
  | sub (a b : Expr)
  | mul (a b : Expr)
  | div (a b : Expr)
  | sinE (a : Expr)
  | cosE (a : Expr)
  | floorE (a : Expr)
  | modE (a b : Expr)
  | randE
  | randrangeE (a b : Expr)
  | randnormalE (a b : Expr)
  | perlinE (a b c : Expr)
  | simplexE (a b c : Expr)
  | blendedE (a b c : Expr)
  | octavedE (a b c d : Expr)
deriving DecidableEq, Repr

/-- Evaluation of a compiled formula body in state `s`: either a value or a
thrown exception (`Except.error`).  Each case mirrors the corresponding
`Ctx` member or operator. -/
def evalE (P : Prims) : Expr → EvalState → Except Unit JSVal
  | .num q, _ => .ok (.num q)
  | .varX, s => .ok s.argX
  | .varZ, s => .ok s.argZ
  | .undefE, _ => .ok .undef
  | .badIdent _, _ => .error ()
  | .add a b, s => do pure (jadd (← evalE P a s) (← evalE P b s))
  | .sub a b, s => do pure (jsub (← evalE P a s) (← evalE P b s))
  | .mul a b, s => do pure (jmul (← evalE P a s) (← evalE P b s))
  | .div a b, s => do pure (jdiv (← evalE P a s) (← evalE P b s))
  | .sinE a, s => do pure (junary P.sinQ (← evalE P a s))
  | .cosE a, s => do pure (junary P.cosQ (← evalE P a s))
  | .floorE a, s => do pure (jfloor (← evalE P a s))
  | .modE a b, s => do pure (jmod (← evalE P a s) (← evalE P b s))
  | .randE, s => .ok (Ctx.rand P s)
  | .randrangeE a b, s => do pure (Ctx.randrange P s (← evalE P a s) (← evalE P b s))
  | .randnormalE a b, s => do pure (Ctx.randnormal P s (← evalE P a s) (← evalE P b s))
  | .perlinE a b c, s => do
      pure (Ctx.perlin P s.perm (← evalE P a s) (← evalE P b s) (← evalE P c s))
  | .simplexE a b c, s => do
      pure (Ctx.simplex P s.perm (← evalE P a s) (← evalE P b s) (← evalE P c s))
  | .blendedE a b c, s => do
      pure (Ctx.blended P s.perm (← evalE P a s) (← evalE P b s) (← evalE P c s))
  | .octavedE a b c d, s => do
      pure (Ctx.octaved P s.perm (← evalE P a s) (← evalE P b s) (← evalE P c s)
        (← evalE P d s))

/-- A formula as handed to `compileFormula`: its text (used later by the
biome heuristic, which greps the active formula string for `mod`) and the
outcome of `new Function` on the caret-rewritten text — `none` when that
construction throws a SyntaxError, otherwise the body's AST. -/
structure Source where
  text : String
  parsed : Option Expr

/-- The state `compileFormula` smoke-tests in: `Ctx._x = 0; Ctx._z = 0;
f(Ctx, 0, 0)` (script.js lines 355-356). -/
def originState (perm : ℕ → Fin 256) (rng : ℕ → ℚ) : EvalState :=
  { argX := .num 0, argZ := .num 0, ctxX := 0, ctxZ := 0, perm := perm, rng := rng }

/-- `compileFormula` (script.js lines 345-363): build the callable, evaluate
it once at the origin, and return it unless something threw — the result
value of the smoke test itself is not inspected. -/
def compileFormula (P : Prims) (perm : ℕ → Fin 256) (rng : ℕ → ℚ)
    (src : Source) : Option Expr :=
  match src.parsed with
  | none => none
  | some e =>
      match evalE P e (originState perm rng) with
      | .error _ => none
      | .ok _ => some e

/-- Biome labels of script.js lines 404-414. -/
inductive Biome where
  | WATER | SAND | GRASS | STONE | SNOW | NEON | ALIEN | LAVA
deriving DecidableEq, Repr

/-- The base band from the floored surface height (script.js lines 405-410). -/
def baseBand (surfaceY : ℤ) : Biome :=
  if surfaceY < -2 then .WATER
  else if surfaceY < 2 then .SAND
  else if surfaceY < 12 then .GRASS
  else if surfaceY < 30 then .STONE
  else .SNOW

/-- Whether `needle` occurs at the start of `hay`. -/
def charsStartWith : List Char → List Char → Bool
  | _, [] => true
  | [], _ :: _ => false
  | a :: hay, b :: needle => a = b && charsStartWith hay needle

/-- Whether `needle` occurs anywhere in `hay`. -/
def charsInclude : List Char → List Char → Bool
  | [], needle => needle.isEmpty
  | hay@(_ :: rest), needle => charsStartWith hay needle || charsInclude rest needle

/-- JavaScript `String.prototype.includes`. -/
def jsIncludes (s sub : String) : Bool := charsInclude s.data sub.data

/-- Biome classification of one sampled column (script.js lines 404-414):
base band from the floored height, then the sequential overrides on the
formula text and the raw height, each overwriting the classification so
far. -/
def biomeOf (formulaText : String) (y : ℚ) : Biome :=
  let surfaceY : ℤ := ⌊y⌋
  let b1 := baseBand surfaceY
  let b2 := if jsIncludes formulaText "mod" ∧ 5 < surfaceY then Biome.NEON else b1
  let b3 := if (50 : ℚ) < y then Biome.ALIEN else b2
  if y < -25 then Biome.LAVA else b3

/-- Grid edge of the voxel window, `const GRID = 90` (script.js line 293). -/
def GRID : ℕ := 90

/-- Vertical layers per column, `const LAYERS = 4` (script.js line 294). -/
def LAYERS : ℕ := 4

/-- One written instance slot: world position, column biome, layer depth
(the color written at the slot is a function of these, not modelled). -/
structure Inst where
  wx : ℤ
  y : ℤ
  wz : ℤ
  biome : Biome
  layer : ℕ
deriving DecidableEq, Repr

/-- The per-cell evaluation state of the sampling loop (script.js lines
392-394): `Ctx._x = wx; Ctx._z = wz;` then `compiledFunc(Ctx, wx, wz)`. -/
def cellState (perm : ℕ → Fin 256) (rng : ℕ → ℚ) (wx wz : ℤ) : EvalState :=
  { argX := .num (wx : ℚ), argZ := .num (wz : ℚ), ctxX := (wx : ℚ), ctxZ := (wz : ℚ),
    perm := perm, rng := rng }

/-- The height taken for one cell (script.js lines 396-401): the evaluated
value when it is a finite number, otherwise 0 — both a thrown exception and
a `NaN`/`±Infinity`/non-number result fall back to 0. -/
def sampleHeight (P : Prims) (perm : ℕ → Fin 256) (rng : ℕ → ℚ) (e : Expr)
    (wx wz : ℤ) : ℚ :=
  match evalE P e (cellState perm rng wx wz) with
  | .ok (.num q) => q
  | _ => 0

/-- Whether a cell's evaluation failed (threw, or produced a value the
`isNaN(y) || !isFinite(y)` guard rejects). -/
def isBadResult : Except Unit JSVal → Bool
  | .ok (.num _) => false
  | _ => true

/-- The instance slots written by one full sampling pass (script.js lines
383-449): for each of the `GRID × GRID` columns around the anchor, the
sampled surface height, the biome, and `LAYERS` stacked slots. -/
def resample (P : Prims) (perm : ℕ → Fin 256) (rng : ℕ → ℚ) (text : String)
    (e : Expr) (cx cz : ℤ) : List Inst :=
  (List.range GRID).flatMap fun i =>
    (List.range GRID).flatMap fun j =>
      let wx : ℤ := cx - (GRID / 2 : ℕ) + i
      let wz : ℤ := cz - (GRID / 2 : ℕ) + j
      let y := sampleHeight P perm rng e wx wz
      let surfaceY : ℤ := ⌊y⌋
      let biome := biomeOf text y
      (List.range LAYERS).map fun (d : ℕ) =>
        { wx := wx, y := surfaceY - (d : ℤ), wz := wz, biome := biome, layer := d }

/-- Mutable session state of section 3 of script.js: the active formula
text, the active compiled function, and the window throttle anchors. -/
structure Session where
  currentFormula : String
  compiledFunc : Option Expr
  lastCamX : ℤ
  lastCamZ : ℤ
  instances : List Inst

/-- `updateInfiniteTerrain` (script.js lines 365-452): no-op without a
compiled function; otherwise recompute the anchor from the camera, skip the
pass when the anchor moved less than one cell on both axes, else rewrite
the whole instance buffer. -/
def updateInfiniteTerrain (P : Prims) (perm : ℕ → Fin 256) (rng : ℕ → ℚ)
    (camX camZ : ℚ) (s : Session) : Session :=
  match s.compiledFunc with
  | none => s
  | some e =>
      let cx : ℤ := ⌊camX⌋
      let cz : ℤ := ⌊camZ⌋
      if |cx - s.lastCamX| < 1 ∧ |cz - s.lastCamZ| < 1 then s
      else
        { s with lastCamX := cx, lastCamZ := cz,
                 instances := resample P perm rng s.currentFormula e cx cz }

/-- `updateTerrain` (script.js lines 454-462): store the text, compile, and
only on success install the new function, reset the throttle anchor and
rerun the sampler. -/
def updateTerrain (P : Prims) (perm : ℕ → Fin 256) (rng : ℕ → ℚ)
    (camX camZ : ℚ) (s : Session) (src : Source) : Session :=
  let s1 := { s with currentFormula := src.text }
  match compileFormula P perm rng src with
  | none => s1
  | some e =>
      updateInfiniteTerrain P perm rng camX camZ
        { s1 with compiledFunc := some e, lastCamX := -99999 }

/-- A history/save record (script.js line 514): `{ formula, type, noise, name }`. -/
structure HistRec where
  formula : String
  rtype : String
  noise : String
  name : String
deriving DecidableEq, Repr

/-- Whether the insertion would duplicate the current head entry
(script.js line 518). -/
def headDup (hist : List HistRec) (d : HistRec) : Bool :=
  match hist with
  | [] => false
  | h0 :: _ => h0.formula = d.formula

/-- `addToHistory` (script.js lines 517-522): return unchanged when the new
formula equals the head entry's, else unshift and pop past 50 entries. -/
def addToHistory (hist : List HistRec) (d : HistRec) : List HistRec :=
  if headDup hist d then hist
  else
    let l := d :: hist
    if l.length > 50 then l.dropLast else l

/-!
Claim theorems.
-/

/-- Formula evaluation reads only the call arguments, the coordinate slots
and the permutation table; in particular it never consumes the ambient
`Math.random` stream. -/
theorem evalE_ext (P : Prims) (e : Expr) (s1 s2 : EvalState)
    (hax : s1.argX = s2.argX) (haz : s1.argZ = s2.argZ) (hx : s1.ctxX = s2.ctxX)
    (hz : s1.ctxZ = s2.ctxZ) (hp : s1.perm = s2.perm) :
    evalE P e s1 = evalE P e s2 := by
  induction e with
  | num q => rfl
  | varX => simp [evalE, hax]
  | varZ => simp [evalE, haz]
  | undefE => rfl
  | badIdent n => rfl
  | add a b iha ihb => simp [evalE, iha, ihb]
  | sub a b iha ihb => simp [evalE, iha, ihb]
  | mul a b iha ihb => simp [evalE, iha, ihb]
  | div a b iha ihb => simp [evalE, iha, ihb]
  | sinE a iha => simp [evalE, iha]
  | cosE a iha => simp [evalE, iha]
  | floorE a iha => simp [evalE, iha]
  | modE a b iha ihb => simp [evalE, iha, ihb]
  | randE => simp [evalE, Ctx.rand, hx, hz]
  | randrangeE a b iha ihb => simp [evalE, Ctx.randrange, hx, hz, iha, ihb]
  | randnormalE a b iha ihb => simp [evalE, Ctx.randnormal, hx, hz, iha, ihb]
  | perlinE a b c iha ihb ihc => simp [evalE, hp, iha, ihb, ihc]
  | simplexE a b c iha ihb ihc => simp [evalE, hp, iha, ihb, ihc]
  | blendedE a b c iha ihb ihc => simp [evalE, hp, iha, ihb, ihc]
  | octavedE a b c d iha ihb ihc ihd => simp [evalE, hp, iha, ihb, ihc, ihd]

/-- C1: for every compiled formula built from the deterministic random/noise
primitives, two evaluations at the same world coordinates — same argument
values, same coordinate slots `(_x,_z)`, same noise permutation table —
return identical results, whatever else (in particular the ambient
`Math.random` stream) differs between the two runs; and `rand()`,
`randrange(min,max)`, `randnormal(mean,stdev)` are pure functions of the
coordinate slots. -/
theorem c1_deterministic_evaluation (P : Prims) (e : Expr) (s1 s2 : EvalState)
    (hax : s1.argX = s2.argX) (haz : s1.argZ = s2.argZ) (hx : s1.ctxX = s2.ctxX)
    (hz : s1.ctxZ = s2.ctxZ) (hp : s1.perm = s2.perm) :
    evalE P e s1 = evalE P e s2
    ∧ Ctx.rand P s1 = Ctx.rand P s2
    ∧ (∀ mn mx, Ctx.randrange P s1 mn mx = Ctx.randrange P s2 mn mx)
    ∧ (∀ mean stdev, Ctx.randnormal P s1 mean stdev = Ctx.randnormal P s2 mean stdev) := by
  refine ⟨evalE_ext P e s1 s2 hax haz hx hz hp, ?_, ?_, ?_⟩
  · simp [Ctx.rand, hx, hz]
  · intro mn mx; simp [Ctx.randrange, hx, hz]
  · intro mean stdev; simp [Ctx.randnormal, hx, hz]

/-- A concrete interpretation of the primitive bundle, for witnesses. -/
def testPrims : Prims :=
  { sinQ := fun q => q / 7, cosQ := fun q => q / 3, sqrtQ := fun q => q + 1,
    lnQ := fun q => q - 1, piQ := 22 / 7, nsimplex := fun _ a c => a + 2 * c }

/-- A concrete permutation-draw oracle, for witnesses. -/
def permZero : ℕ → Fin 256 := fun _ => 0

/-- One concrete ambient `Math.random` stream, for witnesses. -/
def rngZero : ℕ → ℚ := fun _ => 0

/-- Another ambient stream, differing from `rngZero`, for witnesses. -/
def rngHalf : ℕ → ℚ := fun _ => 1 / 2

/-- A concrete evaluation state at world cell `(3, 5)`. -/
def stateA : EvalState :=
  { argX := .num 3, argZ := .num 5, ctxX := 3, ctxZ := 5, perm := permZero, rng := rngZero }

/-- The same cell with a different ambient `Math.random` stream. -/
def stateB : EvalState :=
  { argX := .num 3, argZ := .num 5, ctxX := 3, ctxZ := 5, perm := permZero, rng := rngHalf }

/-- C1 witness: a concrete formula (`randrange(rand(), simplex(x, 0, z))`)
evaluated at cell (3,5) in two states that differ in the ambient
`Math.random` stream. -/
theorem c1_deterministic_evaluation_witness :
    evalE testPrims (.randrangeE .randE (.simplexE .varX (.num 0) .varZ)) stateA
      = evalE testPrims (.randrangeE .randE (.simplexE .varX (.num 0) .varZ)) stateB
    ∧ Ctx.rand testPrims stateA = Ctx.rand testPrims stateB
    ∧ (∀ mn mx, Ctx.randrange testPrims stateA mn mx = Ctx.randrange testPrims stateB mn mx)
    ∧ (∀ mean stdev, Ctx.randnormal testPrims stateA mean stdev
        = Ctx.randnormal testPrims stateB mean stdev) :=
  c1_deterministic_evaluation testPrims (.randrangeE .randE (.simplexE .varX (.num 0) .varZ))
    stateA stateB rfl rfl rfl rfl rfl

/-- A formula whose smoke test evaluates to `NaN`: the text `0/0`. -/
def srcNaN : Source := { text := "0/0", parsed := some (.div (.num 0) (.num 0)) }

/-- C2 counterexample: the claim says a non-finite or non-numeric smoke-test
result yields a CompileError; but for `0/0` the origin evaluation returns
`NaN` and `compileFormula` still returns the callable, not an error. -/
theorem c2_counterexample :
    evalE testPrims (.div (.num 0) (.num 0)) (originState permZero rngZero) = .ok .nan
    ∧ compileFormula testPrims permZero rngZero srcNaN = some (.div (.num 0) (.num 0)) := by
  constructor
  · rfl
  · rfl

/-- C2 (amended): `compileFormula` performs the one smoke-test evaluation at
the origin and returns an error exactly when the text fails to parse or
that evaluation throws; the value of the result — `NaN`, `±Infinity` or a
non-number included — is never inspected. -/
theorem c2_smoke_test_throw_only (P : Prims) (perm : ℕ → Fin 256) (rng : ℕ → ℚ)
    (src : Source) :
    compileFormula P perm rng src = none ↔
      src.parsed = none
      ∨ ∃ e, src.parsed = some e ∧ evalE P e (originState perm rng) = .error () := by
  unfold compileFormula
  cases hp : src.parsed with
  | none => simp
  | some e =>
      cases hv : evalE P e (originState perm rng) with
      | error u => cases u; simp [hv]
      | ok v => simp [hv]

/-- C3: when compilation of a formula string fails, the previously active
compiled height function is untouched — `updateTerrain` stores the new text
but leaves `compiledFunc` exactly as it was. -/
theorem c3_failed_compile_keeps_height_function (P : Prims) (perm : ℕ → Fin 256)
    (rng : ℕ → ℚ) (camX camZ : ℚ) (s : Session) (src : Source)
    (hfail : compileFormula P perm rng src = none) :
    (updateTerrain P perm rng camX camZ s src).compiledFunc = s.compiledFunc := by
  unfold updateTerrain
  rw [hfail]

/-- A session holding an active height function, for witnesses. -/
def sessionA : Session :=
  { currentFormula := "sin(x*0.1)*cos(z*0.1)*10", compiledFunc := some (.num 1),
    lastCamX := -99999, lastCamZ := -99999, instances := [] }

/-- The spec's unparsable example `sin(x +* z)`: `new Function` throws, so
`parsed` is `none`. -/
def srcBad : Source := { text := "sin(x +* z)", parsed := none }

/-- C3 witness: feeding the unparsable `sin(x +* z)` to a session keeps its
compiled function. -/
theorem c3_failed_compile_keeps_height_function_witness :
    (updateTerrain testPrims permZero rngZero 0 0 sessionA srcBad).compiledFunc
      = sessionA.compiledFunc :=
  c3_failed_compile_keeps_height_function testPrims permZero rngZero 0 0 sessionA srcBad rfl

/-- Length of a flat map whose pieces all have the same length. -/
theorem length_flatMap_const {α β : Type} (f : α → List β) (k : ℕ)
    (h : ∀ a, (f a).length = k) (l : List α) :
    (l.flatMap f).length = l.length * k := by
  induction l with
  | nil => simp
  | cons a t ih =>
      simp only [List.flatMap_cons, List.length_append, List.length_cons, ih, h]
      ring

/-- C4: during a sampling pass, a cell whose evaluation throws or returns a
non-finite or non-numeric value contributes height exactly 0, and the pass
still writes every one of the `GRID*GRID*LAYERS` instance slots. -/
theorem c4_bad_cell_height_zero_pass_total (P : Prims) (perm : ℕ → Fin 256)
    (rng : ℕ → ℚ) (text : String) (e : Expr) (wx wz cx cz : ℤ)
    (hbad : isBadResult (evalE P e (cellState perm rng wx wz)) = true) :
    sampleHeight P perm rng e wx wz = 0
    ∧ (resample P perm rng text e cx cz).length = GRID * GRID * LAYERS := by
  constructor
  · unfold sampleHeight
    cases hres : evalE P e (cellState perm rng wx wz) with
    | error u => rfl
    | ok v =>
        cases v with
        | num q => rw [hres] at hbad; simp [isBadResult] at hbad
        | nan => rfl
        | inf => rfl
        | ninf => rfl
        | undef => rfl
  · unfold resample
    rw [length_flatMap_const _ (GRID * LAYERS)]
    · simp [List.length_range, Nat.mul_assoc]
    · intro i
      rw [length_flatMap_const _ LAYERS]
      · simp [List.length_range]
      · intro j
        simp [List.length_range]

/-- C4 witness: a formula that is an unknown identifier throws at every
cell; at cell (7,9) of the pass anchored at the origin its height is 0 and
the pass still fills all 32400 slots. -/
theorem c4_bad_cell_height_zero_pass_total_witness :
    sampleHeight testPrims permZero rngZero (.badIdent "foo") 7 9 = 0
    ∧ (resample testPrims permZero rngZero "foo" (.badIdent "foo") 0 0).length
        = GRID * GRID * LAYERS :=
  c4_bad_cell_height_zero_pass_total testPrims permZero rngZero "foo" (.badIdent "foo")
    7 9 0 0 rfl

/-- Floored value above 5 forces the raw value above 5. -/
theorem five_lt_of_floor (y : ℚ) (hz : 5 < ⌊y⌋) : (5 : ℚ) < y := by
  have h6 : ((6 : ℤ) : ℚ) ≤ y := Int.le_floor.mp (by omega)
  push_cast at h6
  linarith

/-- C5: the biome overrides run after, and take precedence over, the base
floored-height band — lava beats alien beats neon beats the band, each
later check in the source overwriting the classification, and the neon
check reads the formula text while alien/lava read the raw height.  In
particular a cell whose raw height clears the alien threshold is alien even
when the neon (modulo-in-formula) check also matched. -/
theorem c5_biome_override_order (text : String) (y : ℚ) :
    (50 < y → biomeOf text y = .ALIEN)
    ∧ (y < -25 → biomeOf text y = .LAVA)
    ∧ (jsIncludes text "mod" = true → 5 < ⌊y⌋ → ¬(50 < y) → biomeOf text y = .NEON)
    ∧ ((jsIncludes text "mod" = false ∨ ⌊y⌋ ≤ 5) → ¬(50 < y) → ¬(y < -25) →
        biomeOf text y = baseBand ⌊y⌋)
    ∧ (jsIncludes text "mod" = true → 5 < ⌊y⌋ → 50 < y → biomeOf text y = .ALIEN) := by
  refine ⟨?_, ?_, ?_, ?_, ?_⟩
  · intro h50
    have hn : ¬ y < -25 := by linarith
    simp only [biomeOf]
    rw [if_neg hn, if_pos h50]
  · intro hlava
    simp only [biomeOf]
    rw [if_pos hlava]
  · intro hmod hfl h50
    have hy5 : (5 : ℚ) < y := five_lt_of_floor y hfl
    have hn : ¬ y < -25 := by linarith
    simp only [biomeOf]
    rw [if_neg hn, if_neg h50, if_pos ⟨hmod, hfl⟩]
  · intro hno h50 hlava
    simp only [biomeOf]
    rw [if_neg hlava, if_neg h50, if_neg ?_]
    rcases hno with hm | hle
    · rintro ⟨hmod, -⟩
      rw [hm] at hmod
      exact Bool.false_ne_true hmod
    · rintro ⟨-, hfl⟩
      omega
  · intro hmod hfl h50
    have hn : ¬ y < -25 := by linarith
    simp only [biomeOf]
    rw [if_neg hn, if_pos h50]

/-- C6: a column whose floored surface height is exactly -2 is not water
but sand — the band thresholds -2, 2 and 12 are strict upper bounds. -/
theorem c6_band_boundaries (h : ℤ) :
    baseBand (-2) = .SAND
    ∧ biomeOf "x" (-2) = .SAND
    ∧ (baseBand h = .WATER ↔ h < -2)
    ∧ (baseBand h = .SAND ↔ -2 ≤ h ∧ h < 2)
    ∧ (baseBand h = .GRASS ↔ 2 ≤ h ∧ h < 12) := by
  refine ⟨by decide, by decide, ?_, ?_, ?_⟩ <;>
    · unfold baseBand
      split_ifs <;> simp <;> omega

/-- Below the cap, a non-duplicate insertion is a plain unshift. -/
theorem addToHistory_push (hist : List HistRec) (d : HistRec)
    (hdup : headDup hist d = false) (hlen : hist.length ≤ 49) :
    addToHistory hist d = d :: hist := by
  unfold addToHistory
  rw [hdup]
  simp only [Bool.false_eq_true, if_false]
  rw [if_neg]
  simp only [List.length_cons]
  omega

/-- Folding adjacent-distinct insertions that stay below the cap builds the
reversed list on top of the accumulator. -/
theorem foldl_addToHistory_reverse (L : List HistRec) :
    ∀ acc : List HistRec, acc.length + L.length ≤ 50 →
      L.Chain' (fun a b => a.formula ≠ b.formula) →
      (∀ a, L.head? = some a → headDup acc a = false) →
      List.foldl addToHistory acc L = L.reverse ++ acc := by
  induction L with
  | nil => intro acc _ _ _; simp
  | cons a t ih =>
      intro acc hlen hchain hhead
      rw [List.foldl_cons,
        addToHistory_push acc a (hhead a rfl) (by simp only [List.length_cons] at hlen; omega)]
      rw [ih (a :: acc) (by simp only [List.length_cons] at hlen ⊢; omega)
        hchain.tail ?_]
      · simp
      · intro b hb
        have hrel : a.formula ≠ b.formula :=
          (List.chain'_cons'.mp hchain).1 b hb
        simp only [headDup]
        exact decide_eq_false hrel

/-- Dropping the last element of a reversal drops the head. -/
theorem reverse_dropLast (l : List HistRec) : l.reverse.dropLast = l.tail.reverse := by
  cases l with
  | nil => rfl
  | cons a t => simp [List.reverse_cons, List.dropLast_concat]

/-- C7: inserting 51 pairwise-distinct formulas into an empty history keeps
exactly the 50 most recent, most-recent-first, evicting the oldest;
inserting a formula equal to the head entry's is a no-op; and the duplicate
check looks only at the head, so a formula matching a deeper entry is still
inserted. -/
theorem c7_history_cap_and_dedup (L hist : List HistRec) (d e : HistRec)
    (h51 : L.length = 51)
    (hpw : L.Pairwise (fun a b => a.formula ≠ b.formula))
    (hdup : headDup hist e = true)
    (hnew : headDup hist d = false) :
    List.foldl addToHistory [] L = (L.drop 1).reverse
    ∧ addToHistory hist e = hist
    ∧ (addToHistory hist d).head? = some d := by
  refine ⟨?_, ?_, ?_⟩
  · have hne : L ≠ [] := by intro h; rw [h] at h51; simp at h51
    have hLd : L.dropLast ++ [L.getLast hne] = L := List.dropLast_append_getLast hne
    have hF : L.dropLast.length = 50 := by
      rw [List.length_dropLast, h51]
    have hpwF : L.dropLast.Pairwise (fun a b => a.formula ≠ b.formula) :=
      hpw.sublist (List.dropLast_sublist L)
    have hfold : List.foldl addToHistory [] L.dropLast = L.dropLast.reverse := by
      have h := foldl_addToHistory_reverse L.dropLast [] (by simp [hF])
        hpwF.chain' (fun a _ => rfl)
      simpa using h
    have hsplit : ∀ b ∈ L.dropLast, b.formula ≠ (L.getLast hne).formula := by
      have hp2 := hpw
      rw [← hLd] at hp2
      have := (List.pairwise_append.mp hp2).2.2
      intro b hb
      exact this b hb (L.getLast hne) (List.mem_singleton.mpr rfl)
    have hrevne : L.dropLast.reverse ≠ [] := by
      intro h
      have := congrArg List.length h
      rw [List.length_reverse, hF] at this
      simp at this
    have hheadDup : headDup L.dropLast.reverse (L.getLast hne) = false := by
      cases hrev : L.dropLast.reverse with
      | nil => exact absurd hrev hrevne
      | cons h0 t0 =>
          have hmem : h0 ∈ L.dropLast := by
            rw [← List.mem_reverse, hrev]
            exact List.mem_cons_self h0 t0
          simp only [headDup]
          exact decide_eq_false (hsplit h0 hmem)
    conv_lhs => rw [← hLd]
    rw [List.foldl_append, hfold]
    simp only [List.foldl_cons, List.foldl_nil]
    unfold addToHistory
    rw [hheadDup]
    simp only [Bool.false_eq_true, if_false]
    rw [if_pos (by simp [hF])]
    rw [List.dropLast_cons_of_ne_nil hrevne, reverse_dropLast]
    conv_rhs => rw [← hLd]
    rw [List.drop_append_of_le_length (by rw [hF]; omega), List.reverse_append]
    simp [List.drop_one]
  · unfold addToHistory
    rw [hdup]
    simp
  · unfold addToHistory
    rw [hnew]
    simp only [Bool.false_eq_true, if_false]
    split_ifs with hcap
    · cases hist with
      | nil => simp at hcap
      | cons h0 t0 =>
          rw [List.dropLast_cons_of_ne_nil (by simp)]
          rfl
    · rfl

/-- Fifty-one records with pairwise-distinct one-character formulas. -/
def histL51 : List HistRec :=
  (List.range 51).map
    (fun i => { formula := String.mk [Char.ofNat (65 + i)], rtype := "R",
                noise := "N", name := "M" })

/-- A two-entry history, for the dedup conjuncts. -/
def histAB : List HistRec :=
  [{ formula := "a", rtype := "R", noise := "N", name := "M" },
   { formula := "b", rtype := "R", noise := "N", name := "M" }]

/-- Reinsertion of the head entry. -/
def recA : HistRec := { formula := "a", rtype := "R", noise := "N", name := "M" }

/-- Reinsertion of the deeper (non-head) entry. -/
def recB : HistRec := { formula := "b", rtype := "R", noise := "N", name := "M" }

/-- C7 witness: the 51 concrete insertions, the head-duplicate no-op, and
the deeper-duplicate insertion, all at concrete inputs. -/
theorem c7_history_cap_and_dedup_witness :
    List.foldl addToHistory [] histL51 = (histL51.drop 1).reverse
    ∧ addToHistory histAB recA = histAB
    ∧ (addToHistory histAB recB).head? = some recB :=
  c7_history_cap_and_dedup histL51 histAB recB recA (by decide) (by decide)
    (by decide) (by decide)

/-- C8: one octave collapses the octave sum — `octaved(x, z, 1, per)` equals
the bare noise sample at `(x, z)` over the same permutation table, for every
persistence argument, and thus agrees with the `simplex` wrapper applied at
the same coordinates. -/
theorem c8_octaved_single_octave (P : Prims) (perm : ℕ → Fin 256) (x z : ℚ)
    (per : JSVal) :
    Ctx.octaved P perm (.num x) (.num z) (.num 1) per = .num (P.nsimplex perm x z)
    ∧ Ctx.octaved P perm (.num x) (.num z) (.num 1) per
        = Ctx.simplex P perm (.num x) (.num 0) (.num z) := by
  have h1 : Ctx.octaved P perm (.num x) (.num z) (.num 1) per
      = .num (P.nsimplex perm x z) := by
    norm_num [Ctx.octaved, Ctx.iterCount, orDefault, truthy, toNum, Ctx.octStep,
      jmul, jadd, jdiv, liftNoise2]
  exact ⟨h1, by rw [h1]; norm_num [Ctx.simplex, liftNoise2, toNum]⟩

/-- C10: the `perlin`, `simplex` and `blended` wrappers take three arguments
and never read the second — changing it cannot change the result, and on
finite coordinates they reduce to the underlying `Noise.simplex` sample
(`blended` adding the `sin(x)*cos(z)` term and halving).  A two-argument
call such as `simplex(a, b)` therefore binds `z = undefined` and evaluates
`Noise.simplex(a, undefined)`, which is `NaN`. -/
theorem c10_noise_wrappers_ignore_middle (P : Prims) (perm : ℕ → Fin 256)
    (x y y2 z b : JSVal) (a c : ℚ) :
    Ctx.perlin P perm x y z = Ctx.perlin P perm x y2 z
    ∧ Ctx.simplex P perm x y z = Ctx.simplex P perm x y2 z
    ∧ Ctx.blended P perm x y z = Ctx.blended P perm x y2 z
    ∧ Ctx.perlin P perm (.num a) y (.num c) = .num (P.nsimplex perm a c)
    ∧ Ctx.simplex P perm (.num a) y (.num c) = .num (P.nsimplex perm a c)
    ∧ Ctx.blended P perm (.num a) y (.num c)
        = .num ((P.nsimplex perm a c + P.sinQ a * P.cosQ c) / 2)
    ∧ Ctx.simplex P perm (.num a) b .undef = .nan := by
    refine ⟨rfl, rfl, rfl, rfl, rfl, ?_, rfl⟩
    norm_num [Ctx.blended, liftNoise2, junary, toNum, jadd, jmul, jdiv]

/-- Reading the table is invariant under reduction of the index mod 256. -/
theorem permAt_mod (draws : ℕ → Fin 256) (i : ℕ) :
    Noise.permAt draws i = Noise.permAt draws (i % 256) := by
  unfold Noise.permAt
  congr 2
  apply Fin.ext
  show i &&& 255 = (i % 256) &&& 255
  rw [Noise.and_255_eq_mod, Noise.and_255_eq_mod]
  omega

/-- C9: after `seed()`, the first 256 permutation-table entries are a
permutation of 0..255, every entry repeats the entry at its index mod 256,
and every index `simplex` forms — `ii + perm[jj]`, `ii + i1 + perm[jj + j1]`,
`ii + 1 + perm[jj + 1]` with `ii, jj ≤ 255` and `i1, j1 ≤ 1` — stays below
the table length 512. -/
theorem c9_permutation_table (draws : ℕ → Fin 256) (ii jj i1 j1 i : ℕ)
    (hii : ii < 256) (hjj : jj < 256) (hi1 : i1 ≤ 1) (hj1 : j1 ≤ 1) (hi : i < 512) :
    ((List.range 256).map (Noise.permAt draws)).Perm (List.range 256)
    ∧ Noise.permAt draws i = Noise.permAt draws (i % 256)
    ∧ ii + Noise.permAt draws jj < 512
    ∧ ii + i1 + Noise.permAt draws (jj + j1) < 512
    ∧ ii + 1 + Noise.permAt draws (jj + 1) < 512 := by
  have h1 := Noise.permAt_lt_256 draws jj
  have h2 := Noise.permAt_lt_256 draws (jj + j1)
  have h3 := Noise.permAt_lt_256 draws (jj + 1)
  exact ⟨Noise.permAt_range_perm draws, permAt_mod draws i,
    by omega, by omega, by omega⟩

/-- C9 witness: the theorem applied to the concrete all-zero draw oracle
at `ii = jj = 255`, `i1 = j1 = 1`, `i = 511`. -/
theorem c9_permutation_table_witness :
    ((List.range 256).map (Noise.permAt permZero)).Perm (List.range 256)
    ∧ Noise.permAt permZero 511 = Noise.permAt permZero (511 % 256)
    ∧ 255 + Noise.permAt permZero 255 < 512
    ∧ 255 + 1 + Noise.permAt permZero (255 + 1) < 512
    ∧ 255 + 1 + Noise.permAt permZero (255 + 1) < 512 :=
  c9_permutation_table permZero 255 255 1 1 511 (by decide) (by decide) (by decide)
    (by decide) (by decide)
